import Mathlib

set_option maxHeartbeats 1000000

attribute [local semireducible] Rat.mul Rat.add Rat.sub Rat.inv Nat.gcd

namespace Steel

/-- A point of an STL mesh: three rational coordinates indexed by axis
(0 = X, 1 = Y, 2 = Z).  Models the stl.Point value type; equality is exact. -/
abbrev Point : Type := Fin 3 → ℚ

instance {α : Type} [DecidableEq α] : DecidableEq (Fin 3 → α) := fun f g =>
  decidable_of_iff (f 0 = g 0 ∧ f 1 = g 1 ∧ f 2 = g 2) (by
    constructor
    · rintro ⟨h0, h1, h2⟩
      funext i
      fin_cases i <;> assumption
    · rintro rfl
      exact ⟨rfl, rfl, rfl⟩)

def optDecEq {α : Type} [DecidableEq α] : (a b : Option α) → Decidable (a = b)
  | none, none => isTrue rfl
  | some x, some y => decidable_of_iff (x = y) (by simp)
  | none, some _ => isFalse (by simp)
  | some _, none => isFalse (by simp)

instance {α : Type} [DecidableEq α] : DecidableEq (Option α) := optDecEq

def listDecEq {α : Type} [DecidableEq α] : (as bs : List α) → Decidable (as = bs)
  | [], [] => isTrue rfl
  | [], _ :: _ => isFalse (by simp)
  | _ :: _, [] => isFalse (by simp)
  | a :: as, b :: bs =>
    have : Decidable (as = bs) := listDecEq as bs
    decidable_of_iff (a = b ∧ as = bs) (by simp)

instance {α : Type} [DecidableEq α] : DecidableEq (List α) := listDecEq

/-- An STL triangle: a normal vector N and three vertices V, as in stl.Triangle. -/
structure Triangle where
  N : Point
  V : Fin 3 → Point

instance : DecidableEq Triangle := fun t u =>
  decidable_of_iff (t.N = u.N ∧ t.V = u.V) (by
    cases t
    cases u
    simp)

/-- The strict BELOW classifier from slice (main.go line 131) and cut (line 349):
a point is below the plane when its coordinate on the cutting axis is
less than the plane offset minus the tolerance. -/
def belowPred (si : Fin 3) (sv eps : ℚ) (p : Point) : Bool :=
  decide (p si < sv - eps)

/-- The strict ABOVE classifier from slice (main.go line 132) and cut (line 350). -/
def abovePred (si : Fin 3) (sv eps : ℚ) (p : Point) : Bool :=
  decide (p si > sv + eps)

/-- The edge intersector from slice (main.go lines 134-140) and cut (lines 352-358):
interpolation parameter alpha along the cutting axis, applied to all three
coordinates. -/
def intersectPt (si : Fin 3) (sv : ℚ) (p0 p1 : Point) : Point :=
  let alpha := (sv - p0 si) / (p1 si - p0 si)
  fun i => p0 i + alpha * (p1 i - p0 i)

/-- The ON classifier, defined inside trimTriangleBelow (main.go line 234):
neither above nor below. -/
def eqPt (below above : Point → Bool) (p : Point) : Bool :=
  !above p && !below p

/-- One iteration of the edge walk of trimTriangleBelow (main.go lines 237-269):
the vertices contributed by the directed edge (cur, next).  The final `none`
is the "unreachable" panic at line 268. -/
def edgeVerts (below above : Point → Bool) (isect : Point → Point → Point)
    (cur next : Point) : Option (List Point) :=
  if !above cur && !above next then some [cur, next]
  else if above cur && above next then some []
  else if eqPt below above cur && above next then some [cur]
  else if above cur && eqPt below above next then some [next]
  else if below cur && above next then some [cur, isect cur next]
  else if above cur && below next then some [isect cur next, next]
  else none

/-- The full edge walk of trimTriangleBelow over the three directed edges
(V0,V1), (V1,V2), (V2,V0) (main.go lines 236-269, the loop unrolled). -/
def collectVerts (below above : Point → Bool) (isect : Point → Point → Point)
    (tr : Triangle) : Option (List Point) :=
  match edgeVerts below above isect (tr.V 0) (tr.V 1),
        edgeVerts below above isect (tr.V 1) (tr.V 2),
        edgeVerts below above isect (tr.V 2) (tr.V 0) with
  | some l0, some l1, some l2 => some (l0 ++ l1 ++ l2)
  | _, _, _ => none

/-- Helper for uniqVertices: keeps every element different from the last one
retained (main.go lines 223-228). -/
def uniqAux (last : Point) : List Point → List Point
  | [] => []
  | x :: xs => if x = last then uniqAux last xs else x :: uniqAux x xs

/-- uniqVertices (main.go lines 218-230): removes equal points located in
adjacent positions. -/
def uniqVertices : List Point → List Point
  | [] => []
  | x :: xs => x :: uniqAux x xs

/-- The cyclic fix-up of trimTriangleBelow (main.go lines 272-275): when the
first and last vertices coincide, drop the trailing duplicate. -/
def dropClosing (v : List Point) : List Point :=
  if 1 < v.length ∧ v.head? = v.getLast? then v.dropLast else v

/-- The deduplicated vertex walk of trimTriangleBelow (main.go lines 236-275):
edge walk, adjacent deduplication, cyclic fix-up. -/
def clipVerts (below above : Point → Bool) (isect : Point → Point → Point)
    (tr : Triangle) : Option (List Point) :=
  match collectVerts below above isect tr with
  | none => none
  | some v => some (dropClosing (uniqVertices v))

/-- trimTriangleBelow (main.go lines 233-306): trims the triangle with the
provided surface and returns the list of resulting triangles.  `none` models
the two panics (lines 268 and 305). -/
def trimTriangleBelow (tr : Triangle) (below above : Point → Bool)
    (isect : Point → Point → Point) : Option (List Triangle) :=
  match clipVerts below above isect tr with
  | none => none
  | some v =>
    if h3 : v.length < 3 then some []
    else if h : v.length = 3 then
      some [⟨tr.N, ![v.get ⟨0, by omega⟩, v.get ⟨1, by omega⟩, v.get ⟨2, by omega⟩]⟩]
    else if h4 : v.length = 4 then
      some [⟨tr.N, ![v.get ⟨0, by omega⟩, v.get ⟨1, by omega⟩, v.get ⟨2, by omega⟩]⟩,
            ⟨tr.N, ![v.get ⟨2, by omega⟩, v.get ⟨3, by omega⟩, v.get ⟨0, by omega⟩]⟩]
    else none

/-- One loop iteration of the cut partitioner (main.go lines 363-390): route
a single triangle into the two accumulated parts.  `none` models a panic
escaping from trimTriangleBelow. -/
def cutStep (below above : Point → Bool) (isect : Point → Point → Point)
    (acc : List Triangle × List Triangle) (tr : Triangle) :
    Option (List Triangle × List Triangle) :=
  let s0 := !above (tr.V 0) && !above (tr.V 1) && !above (tr.V 2)
  let s1 := !below (tr.V 0) && !below (tr.V 1) && !below (tr.V 2)
  let acc1 := if s0 then (acc.1 ++ [tr], acc.2) else acc
  let acc2 := if s1 then (acc1.1, acc1.2 ++ [tr]) else acc1
  if s0 || s1 then some acc2
  else
    match trimTriangleBelow tr below above isect,
          trimTriangleBelow tr above below isect with
    | some t0, some t1 => some (acc2.1 ++ t0, acc2.2 ++ t1)
    | _, _ => none

/-- The cut partitioner loop over the whole mesh with explicit accumulators
(main.go lines 361-390). -/
def cutPartsAux (below above : Point → Bool) (isect : Point → Point → Point)
    (acc : List Triangle × List Triangle) :
    List Triangle → Option (List Triangle × List Triangle)
  | [] => some acc
  | tr :: rest =>
    match cutStep below above isect acc tr with
    | none => none
    | some acc2 => cutPartsAux below above isect acc2 rest

/-- The two output parts of the cut command for a mesh, starting from empty
accumulators (main.go lines 361-390). -/
def cutParts (below above : Point → Bool) (isect : Point → Point → Point)
    (ts : List Triangle) : Option (List Triangle × List Triangle) :=
  cutPartsAux below above isect ([], []) ts

/-- The per-triangle routing rule exactly as the specification words it:
fully non-ABOVE goes unmodified to the below mesh, fully non-BELOW goes
unmodified to the above mesh, both conditions put it unmodified in both
meshes without clipping, otherwise clip is invoked once per half-space.
This definition follows the spec text and is compared against cutParts. -/
def routeSpec (below above : Point → Bool) (isect : Point → Point → Point)
    (tr : Triangle) : Option (List Triangle × List Triangle) :=
  let nonAbove := !above (tr.V 0) && !above (tr.V 1) && !above (tr.V 2)
  let nonBelow := !below (tr.V 0) && !below (tr.V 1) && !below (tr.V 2)
  if nonAbove && nonBelow then some ([tr], [tr])
  else if nonAbove then some ([tr], [])
  else if nonBelow then some ([], [tr])
  else
    match trimTriangleBelow tr below above isect,
          trimTriangleBelow tr above below isect with
    | some t0, some t1 => some (t0, t1)
    | _, _ => none

/-- Concatenation of the spec-side per-triangle routes in input traversal
order: each result list extends the respective output mesh. -/
def routeSpecAll (below above : Point → Bool) (isect : Point → Point → Point) :
    List Triangle → Option (List Triangle × List Triangle)
  | [] => some ([], [])
  | tr :: rest =>
    match routeSpec below above isect tr, routeSpecAll below above isect rest with
    | some pq, some rs => some (pq.1 ++ rs.1, pq.2 ++ rs.2)
    | _, _ => none

/-- One iteration of the plane-selection loop of slice (main.go lines 117-123)
and cut (lines 335-341): state is (axis index, plane offset, count of
non-zero coordinate flags seen so far). -/
def selStep (st : Fin 3 × ℚ × ℕ) (i : Fin 3) (v : ℚ) : Fin 3 × ℚ × ℕ :=
  if v ≠ 0 then (i, v, st.2.2 + 1) else st

/-- The plane-selection loop unrolled over (x, y, z), starting from the
default XY plane at z = 0 (axis 2, offset 0, count 0). -/
def planeSel (cx cy cz : ℚ) : Fin 3 × ℚ × ℕ :=
  selStep (selStep (selStep (2, 0, 0) 0 cx) 1 cy) 2 cz

/-- Plane selection with the more-than-one-coordinate check (main.go
lines 124-126 and 342-344): `none` is the invalid-plane-specification
failure. -/
def selectPlane (cx cy cz : ℚ) : Option (Fin 3 × ℚ) :=
  if (planeSel cx cy cz).2.2 > 1 then none
  else some ((planeSel cx cy cz).1, (planeSel cx cy cz).2.1)

/-- sliceThreshold constant, 0.001 (main.go line 14). -/
def sliceThreshold : ℚ := 1 / 1000

/-- cutThreshold constant, 0.0001 (main.go line 15). -/
def cutThreshold : ℚ := 1 / 10000

/-- The slice tolerance (main.go lines 128-129): bounding-box extent along
the cutting axis times sliceThreshold.  The bounding box itself is computed
by the external stl collaborator, so its min and max are taken as inputs. -/
def sliceEps (bbMin bbMax : Point) (si : Fin 3) : ℚ :=
  (bbMax si - bbMin si) * sliceThreshold

/-- The cut tolerance (main.go lines 346-347). -/
def cutEps (bbMin bbMax : Point) (si : Fin 3) : ℚ :=
  (bbMax si - bbMin si) * cutThreshold

/-- Conversion of a millimeter coordinate to integral hundredths of a
millimeter (main.go line 143): Go int conversion truncates toward zero. -/
def pmm (v : ℚ) : ℤ :=
  if 0 ≤ v * 100 then (v * 100).floor else (v * 100).ceil

/-- The 2D projection of a point for the SVG output (main.go lines 155-157):
coordinates are taken from the projection axes sx and sy produced by the
slice selection loop, offset by the projected bounding-box minimum. -/
def pxy (sx sy : Fin 3) (minSx minSy : ℚ) (p : Point) : ℤ × ℤ :=
  (pmm (p sx - minSx), pmm (p sy - minSy))

/-- One iteration of the slice plane-selection loop (main.go lines 117-123):
the state is (si, sx, sy, sv, cnt); a non-zero coordinate value sets
si, sx, sy to i, (i+1) mod 3, (i+2) mod 3. -/
def selStepSlice (st : Fin 3 × Fin 3 × Fin 3 × ℚ × ℕ) (i : Fin 3) (v : ℚ) :
    Fin 3 × Fin 3 × Fin 3 × ℚ × ℕ :=
  if v ≠ 0 then (i, i + 1, i + 2, v, st.2.2.2.2 + 1) else st

/-- The slice selection loop unrolled over (x, y, z) (main.go lines 110-123):
the defaults of lines 111-113 are si = 2, sx = 0, sy = 0. -/
def planeSelSlice (cx cy cz : ℚ) : Fin 3 × Fin 3 × Fin 3 × ℚ × ℕ :=
  selStepSlice (selStepSlice (selStepSlice (2, 0, 0, 0, 0) 0 cx) 1 cy) 2 cz

/-- The drawing primitive a single triangle contributes to the slice output. -/
inductive SliceOut where
  | skipped : SliceOut
  | outline : ℤ × ℤ → ℤ × ℤ → ℤ × ℤ → ℤ × ℤ → SliceOut
  | lines : List ((ℤ × ℤ) × (ℤ × ℤ)) → SliceOut
  | dot : SliceOut

instance : DecidableEq SliceOut := fun a b =>
  match a, b with
  | .skipped, .skipped => isTrue rfl
  | .outline a0 a1 a2 a3, .outline b0 b1 b2 b3 =>
    decidable_of_iff (a0 = b0 ∧ a1 = b1 ∧ a2 = b2 ∧ a3 = b3) (by simp)
  | .lines s, .lines t => decidable_of_iff (s = t) (by simp)
  | .dot, .dot => isTrue rfl
  | .skipped, .outline _ _ _ _ | .skipped, .lines _ | .skipped, .dot
  | .outline _ _ _ _, .skipped | .outline _ _ _ _, .lines _ | .outline _ _ _ _, .dot
  | .lines _, .skipped | .lines _, .outline _ _ _ _ | .lines _, .dot
  | .dot, .skipped | .dot, .outline _ _ _ _ | .dot, .lines _ => isFalse (by simp)

/-- The edge scan of the slice loop (main.go lines 183-204) over the listed
edge start indices: a coincident side is emitted alone and stops the scan;
an edge fully on one strict side yields the segment between the two
intersections with the edges adjacent to the opposite vertex. -/
def lineWalk (less more : Point → Bool) (isect : Point → Point → Point)
    (pxyf : Point → ℤ × ℤ) (tr : Triangle) :
    List (Fin 3) → List ((ℤ × ℤ) × (ℤ × ℤ))
  | [] => []
  | i :: rest =>
    if eqPt less more (tr.V i) && eqPt less more (tr.V (i + 1)) then
      [(pxyf (tr.V i), pxyf (tr.V (i + 1)))]
    else if (less (tr.V i) && less (tr.V (i + 1))) ||
        (more (tr.V i) && more (tr.V (i + 1))) then
      (pxyf (isect (tr.V i) (tr.V (i + 2))), pxyf (isect (tr.V (i + 1)) (tr.V (i + 2)))) ::
        lineWalk less more isect pxyf tr rest
    else lineWalk less more isect pxyf tr rest

/-- The per-triangle body of the slice loop (main.go lines 159-210): skip a
fully-below or fully-above triangle, draw a fully-ON triangle as a closed
path through its three projected vertices, otherwise scan the edges for
line segments, falling back to a dot.  Classification uses the cutting
axis si; projection uses the axes sx and sy from the selection loop. -/
def projectTriangle (si sx sy : Fin 3) (sv eps minSx minSy : ℚ) (tr : Triangle) :
    SliceOut :=
  if belowPred si sv eps (tr.V 0) && belowPred si sv eps (tr.V 1) &&
      belowPred si sv eps (tr.V 2) then .skipped
  else if abovePred si sv eps (tr.V 0) && abovePred si sv eps (tr.V 1) &&
      abovePred si sv eps (tr.V 2) then .skipped
  else if eqPt (belowPred si sv eps) (abovePred si sv eps) (tr.V 0) &&
      eqPt (belowPred si sv eps) (abovePred si sv eps) (tr.V 1) &&
      eqPt (belowPred si sv eps) (abovePred si sv eps) (tr.V 2) then
    .outline (pxy sx sy minSx minSy (tr.V 0)) (pxy sx sy minSx minSy (tr.V 1))
      (pxy sx sy minSx minSy (tr.V 2)) (pxy sx sy minSx minSy (tr.V 0))
  else
    match lineWalk (belowPred si sv eps) (abovePred si sv eps)
        (intersectPt si sv) (pxy sx sy minSx minSy) tr [0, 1, 2] with
    | [] => .dot
    | s :: rest => .lines (s :: rest)

/-- Externally observable phases of the slice and cut commands, in program
order. -/
inductive Step where
  | readInput : Step
  | planeFail : Step
  | computeBBox : Step
  | processGeometry : Step
  | writeOutput : Step
  | outPathFail : Step

instance : DecidableEq Step := fun a b =>
  match a, b with
  | .readInput, .readInput | .planeFail, .planeFail | .computeBBox, .computeBBox
  | .processGeometry, .processGeometry | .writeOutput, .writeOutput
  | .outPathFail, .outPathFail => isTrue rfl
  | .readInput, .planeFail | .readInput, .computeBBox | .readInput, .processGeometry
  | .readInput, .writeOutput | .readInput, .outPathFail
  | .planeFail, .readInput | .planeFail, .computeBBox | .planeFail, .processGeometry
  | .planeFail, .writeOutput | .planeFail, .outPathFail
  | .computeBBox, .readInput | .computeBBox, .planeFail | .computeBBox, .processGeometry
  | .computeBBox, .writeOutput | .computeBBox, .outPathFail
  | .processGeometry, .readInput | .processGeometry, .planeFail
  | .processGeometry, .computeBBox | .processGeometry, .writeOutput
  | .processGeometry, .outPathFail
  | .writeOutput, .readInput | .writeOutput, .planeFail | .writeOutput, .computeBBox
  | .writeOutput, .processGeometry | .writeOutput, .outPathFail
  | .outPathFail, .readInput | .outPathFail, .planeFail | .outPathFail, .computeBBox
  | .outPathFail, .processGeometry | .outPathFail, .writeOutput => isFalse (by simp)

/-- The phase order of the slice command (main.go lines 94-215): the STL
mesh is read at line 105, the plane check only happens at lines 124-126,
then the bounding box, the triangle loop and the SVG output follow. -/
def sliceSteps (cx cy cz : ℚ) : List Step :=
  Step.readInput ::
    (match selectPlane cx cy cz with
     | none => [Step.planeFail]
     | some _ => [Step.computeBBox, Step.processGeometry, Step.writeOutput])

/-- The phase order of the cut command (main.go lines 308-407): the output
path check precedes everything, the STL mesh is read at line 325, the plane
check only happens at lines 342-344, then bounding box, loop, output. -/
def cutSteps (outPathEmpty : Bool) (cx cy cz : ℚ) : List Step :=
  if outPathEmpty then [Step.outPathFail]
  else
    Step.readInput ::
      (match selectPlane cx cy cz with
       | none => [Step.planeFail]
       | some _ => [Step.computeBBox, Step.processGeometry, Step.writeOutput])

/-- Whether a failure step occurs strictly before the input mesh is read. -/
def failBeforeRead (trace : List Step) : Prop :=
  Step.planeFail ∈ trace.takeWhile (fun s => s != Step.readInput)

instance (trace : List Step) : Decidable (failBeforeRead trace) :=
  inferInstanceAs (Decidable (Step.planeFail ∈ _))

/-- The spec scenario triangle for the clip example: (0,0,0), (2,0,0),
(0,2,0), with an arbitrary fixed normal. -/
def tri3 : Triangle := ⟨![0, 0, 1], ![![0, 0, 0], ![2, 0, 0], ![0, 2, 0]]⟩

/-- The tolerance the cut pipeline derives for the tri3 scenario mesh
(bounding box x extent 2): 2 * cutThreshold. -/
def eps3 : ℚ := cutEps ![0, 0, 0] ![2, 2, 0] 0

/-- A triangle touching the z = 1 plane at one vertex, with the two other
vertices strictly above it (for tolerance 1/2). -/
def triTouch : Triangle := ⟨![0, 0, 1], ![![0, 0, 1], ![0, 0, 2], ![1, 0, 2]]⟩

/-- A degenerate triangle with two coincident vertices, lying entirely at
x = 0. -/
def triDegen : Triangle := ⟨![0, 0, 1], ![![0, 0, 0], ![0, 0, 0], ![0, 1, 0]]⟩

/-- A triangle lying entirely in the z = 5 plane. -/
def triFlat : Triangle := ⟨![0, 0, 1], ![![0, 0, 5], ![1, 0, 5], ![0, 1, 5]]⟩

/-- A triangle lying entirely in the default slicing plane z = 0. -/
def triXY : Triangle := ⟨![0, 0, 1], ![![0, 0, 0], ![1, 0, 0], ![0, 1, 0]]⟩

/-- A throwaway point used to build an alternative intersector. -/
def junkPoint : Point := ![999, 999, 999]

/-- An intersector that agrees with the x = 1 interpolating intersector on
every pair whose first point is classified, and is junk elsewhere. -/
def isectAlt : Point → Point → Point := fun p q =>
  if belowPred 0 1 0 p || abovePred 0 1 0 p then intersectPt 0 1 p q else junkPoint

/-- C8: for every bounding box and cutting axis, the slice tolerance is the
bounding-box extent along the cutting axis times 0.1 percent and the cut
tolerance is that extent times 0.01 percent. -/
theorem epsilon_thresholds (bbMin bbMax : Point) (si : Fin 3) :
    sliceEps bbMin bbMax si = (bbMax si - bbMin si) * (1 / 1000) ∧
    cutEps bbMin bbMax si = (bbMax si - bbMin si) * (1 / 10000) := by
  constructor <;> norm_num [sliceEps, cutEps, sliceThreshold, cutThreshold]

/-- C10: the plane-selection loop only reacts to non-zero coordinate values:
all-zero input selects the default plane z = 0 (axis index 2, offset 0), and
no input whatsoever can select the X or Y axis with offset 0, so a slice or
cut exactly at coordinate 0 on those axes cannot be requested. -/
theorem zero_coord_plane_selection :
    selectPlane 0 0 0 = some (2, 0) ∧
    (∀ cx cy cz : ℚ, ∀ pr : Fin 3 × ℚ,
      selectPlane cx cy cz = some pr → pr.2 = 0 → pr.1 = 2) := by
  constructor
  · decide
  · intro cx cy cz pr h hz
    by_cases hx : cx = 0 <;> by_cases hy : cy = 0 <;> by_cases hz2 : cz = 0 <;>
        simp [selectPlane, planeSel, selStep, hx, hy, hz2] at h <;>
      (subst h; simp_all)

/-- Witness for C10 at the all-zero input. -/
theorem zero_coord_plane_selection_witness :
    selectPlane 0 0 0 = some (2, 0) ∧ ((2, (0 : ℚ)) : Fin 3 × ℚ).1 = 2 :=
  ⟨zero_coord_plane_selection.1,
   zero_coord_plane_selection.2 0 0 0 (2, 0) (by decide) rfl⟩

/-- C1: the deduplicated vertex walk determines the clipper output: fewer
than 3 vertices yield no triangle, exactly 3 yield one triangle in the same
order with the source normal, exactly 4 yield the fan split (v0,v1,v2) and
(v2,v3,v0) with the source normal. -/
theorem clip_output_by_vertex_count
    (below above : Point → Bool) (isect : Point → Point → Point)
    (tr : Triangle) (v : List Point)
    (h : clipVerts below above isect tr = some v) :
    (v.length < 3 → trimTriangleBelow tr below above isect = some []) ∧
    (∀ a b c, v = [a, b, c] →
      trimTriangleBelow tr below above isect = some [⟨tr.N, ![a, b, c]⟩]) ∧
    (∀ a b c d, v = [a, b, c, d] →
      trimTriangleBelow tr below above isect =
        some [⟨tr.N, ![a, b, c]⟩, ⟨tr.N, ![c, d, a]⟩]) := by
  refine ⟨?_, ?_, ?_⟩
  · intro hlen
    simp [trimTriangleBelow, h, hlen]
  · rintro a b c rfl
    simp [trimTriangleBelow, h]
  · rintro a b c d rfl
    simp [trimTriangleBelow, h]
    rfl

/-- Witness for C1 on a concrete fully-kept triangle. -/
theorem clip_output_by_vertex_count_witness :
    trimTriangleBelow triFlat (belowPred 2 10 0) (abovePred 2 10 0) (intersectPt 2 10) =
      some [⟨triFlat.N, ![![0, 0, 5], ![1, 0, 5], ![0, 1, 5]]⟩] :=
  (clip_output_by_vertex_count (belowPred 2 10 0) (abovePred 2 10 0) (intersectPt 2 10)
      triFlat [![0, 0, 5], ![1, 0, 5], ![0, 1, 5]] (by decide)).2.1
    ![0, 0, 5] ![1, 0, 5] ![0, 1, 5] rfl

/-- The edge walk never reaches the first panic of trimTriangleBelow: the
six branch conditions are exhaustive for every pair of boolean classifiers. -/
theorem edgeVerts_isSome (below above : Point → Bool) (isect : Point → Point → Point)
    (cur next : Point) : edgeVerts below above isect cur next ≠ none := by
  unfold edgeVerts eqPt
  cases hac : above cur <;> cases han : above next <;>
    cases hbc : below cur <;> cases hbn : below next <;> simp [hac, han, hbc, hbn]

/-- The deduplicated vertex walk always produces a value. -/
theorem clipVerts_isSome (below above : Point → Bool) (isect : Point → Point → Point)
    (tr : Triangle) : ∃ v, clipVerts below above isect tr = some v := by
  rcases h0 : edgeVerts below above isect (tr.V 0) (tr.V 1) with _ | l0
  · exact absurd h0 (edgeVerts_isSome _ _ _ _ _)
  rcases h1 : edgeVerts below above isect (tr.V 1) (tr.V 2) with _ | l1
  · exact absurd h1 (edgeVerts_isSome _ _ _ _ _)
  rcases h2 : edgeVerts below above isect (tr.V 2) (tr.V 0) with _ | l2
  · exact absurd h2 (edgeVerts_isSome _ _ _ _ _)
  exact ⟨dropClosing (uniqVertices (l0 ++ l1 ++ l2)),
    by simp [clipVerts, collectVerts, h0, h1, h2]⟩

/-- C3 counterexample: on the spec scenario triangle (0,0,0), (2,0,0),
(0,2,0) with plane x = 1, the clipper emits the fan (0,0,0),(1,0,0),(1,1,0)
and (1,1,0),(0,2,0),(0,0,0); the first emitted triangle matches neither of
the two triangles the claim lists. -/
theorem clip_example_fan_counterexample :
    trimTriangleBelow tri3 (belowPred 0 1 eps3) (abovePred 0 1 eps3) (intersectPt 0 1) =
      some [⟨![0, 0, 1], ![![0, 0, 0], ![1, 0, 0], ![1, 1, 0]]⟩,
            ⟨![0, 0, 1], ![![1, 1, 0], ![0, 2, 0], ![0, 0, 0]]⟩] ∧
    (![![0, 0, 0], ![1, 0, 0], ![1, 1, 0]] : Fin 3 → Point) ≠
      ![![0, 0, 0], ![1, 0, 0], ![0, 2, 0]] ∧
    (![![0, 0, 0], ![1, 0, 0], ![1, 1, 0]] : Fin 3 → Point) ≠
      ![![1, 0, 0], ![1, 1, 0], ![0, 2, 0]] := by
  decide

/-- C3 amended: clipping the scenario triangle to the BELOW-or-ON side of
x = 1 yields exactly two triangles, (0,0,0),(1,0,0),(1,1,0) and
(1,1,0),(0,2,0),(0,0,0), both with the source normal. -/
theorem clip_example_fan_split :
    trimTriangleBelow tri3 (belowPred 0 1 eps3) (abovePred 0 1 eps3) (intersectPt 0 1) =
      some [⟨![0, 0, 1], ![![0, 0, 0], ![1, 0, 0], ![1, 1, 0]]⟩,
            ⟨![0, 0, 1], ![![1, 1, 0], ![0, 2, 0], ![0, 0, 0]]⟩] := by
  decide

/-- C5 counterexample: for a triangle touching the plane at one vertex with
the other two strictly above, the deduplicated walk has exactly 1 vertex,
which is outside {0,3,4}, yet the clip silently returns no triangles
instead of failing. -/
theorem small_count_not_fatal_counterexample :
    clipVerts (belowPred 2 1 (1/2)) (abovePred 2 1 (1/2)) (intersectPt 2 1) triTouch =
      some [![0, 0, 1]] ∧
    trimTriangleBelow triTouch (belowPred 2 1 (1/2)) (abovePred 2 1 (1/2)) (intersectPt 2 1) =
      some [] ∧
    trimTriangleBelow triTouch (belowPred 2 1 (1/2)) (abovePred 2 1 (1/2)) (intersectPt 2 1) ≠
      none := by
  decide

/-- C5 amended: the clipper fails (its internal-consistency panic) exactly
for deduplicated vertex counts of 5 or more; counts 1 and 2 fall into the
fewer-than-3 case and silently produce no output triangles. -/
theorem clip_count_violation_surfacing
    (below above : Point → Bool) (isect : Point → Point → Point) (tr : Triangle) :
    (trimTriangleBelow tr below above isect = none ↔
      ∃ v, clipVerts below above isect tr = some v ∧ 5 ≤ v.length) ∧
    (∀ v, clipVerts below above isect tr = some v → v.length = 1 ∨ v.length = 2 →
      trimTriangleBelow tr below above isect = some []) := by
  obtain ⟨w, hw⟩ := clipVerts_isSome below above isect tr
  constructor
  · constructor
    · intro hn
      refine ⟨w, hw, ?_⟩
      simp only [trimTriangleBelow, hw] at hn
      split_ifs at hn with h3 he3 he4
      simp_all
      omega
    · rintro ⟨v, hv, h5⟩
      have hvw : w = v := by
        have := hw.symm.trans hv
        exact Option.some_injective _ this
      subst hvw
      simp only [trimTriangleBelow, hw]
      rw [dif_neg (by omega), dif_neg (by omega), dif_neg (by omega)]
  · intro v hv h12
    have hvw : w = v := by
      have := hw.symm.trans hv
      exact Option.some_injective _ this
    subst hvw
    simp only [trimTriangleBelow, hw]
    rw [dif_pos (by omega)]

/-- Witness for C5 on the concrete one-vertex walk. -/
theorem clip_count_violation_surfacing_witness :
    trimTriangleBelow triTouch (belowPred 2 1 (1/2)) (abovePred 2 1 (1/2)) (intersectPt 2 1) =
      some [] :=
  (clip_count_violation_surfacing (belowPred 2 1 (1/2)) (abovePred 2 1 (1/2))
      (intersectPt 2 1) triTouch).2 [![0, 0, 1]] (by decide) (Or.inl (by decide))

/-- A strictly-below point is not above when the tolerance is non-negative. -/
theorem belowPred_not_above {si : Fin 3} {sv eps : ℚ} {p : Point}
    (heps : 0 ≤ eps) (h : belowPred si sv eps p = true) :
    abovePred si sv eps p = false := by
  simp only [belowPred, decide_eq_true_eq] at h
  simp only [abovePred, decide_eq_false_iff_not]
  intro hc
  linarith

/-- An edge with neither endpoint excluded contributes both endpoints. -/
theorem edgeVerts_both_kept (below above : Point → Bool)
    (isect : Point → Point → Point) (cur next : Point)
    (hc : above cur = false) (hn : above next = false) :
    edgeVerts below above isect cur next = some [cur, next] := by
  simp [edgeVerts, hc, hn]

/-- An edge with both endpoints excluded contributes nothing. -/
theorem edgeVerts_both_excluded (below above : Point → Bool)
    (isect : Point → Point → Point) (cur next : Point)
    (hc : above cur = true) (hn : above next = true) :
    edgeVerts below above isect cur next = some [] := by
  simp [edgeVerts, hc, hn]

/-- Expanding a function on Fin 3 into its three values. -/
theorem fin3_eta {α : Type} (f : Fin 3 → α) : ![f 0, f 1, f 2] = f := by
  funext i
  fin_cases i <;> rfl

/-- C6 amended: for every triangle with pairwise distinct vertices, all
strictly on the kept side of the plane, the clip keeping that side returns
the triangle unchanged and the clip keeping the other side returns nothing.
The distinctness condition is necessary, see the counterexample. -/
theorem clip_strictly_inside_identity
    (si : Fin 3) (sv eps : ℚ) (tr : Triangle) (heps : 0 ≤ eps)
    (hb : ∀ i : Fin 3, belowPred si sv eps (tr.V i) = true)
    (h01 : tr.V 0 ≠ tr.V 1) (h12 : tr.V 1 ≠ tr.V 2) (h20 : tr.V 2 ≠ tr.V 0) :
    trimTriangleBelow tr (belowPred si sv eps) (abovePred si sv eps) (intersectPt si sv) =
      some [tr] ∧
    trimTriangleBelow tr (abovePred si sv eps) (belowPred si sv eps) (intersectPt si sv) =
      some [] := by
  have ha : ∀ i : Fin 3, abovePred si sv eps (tr.V i) = false :=
    fun i => belowPred_not_above heps (hb i)
  constructor
  · have e0 := edgeVerts_both_kept (belowPred si sv eps) (abovePred si sv eps)
      (intersectPt si sv) (tr.V 0) (tr.V 1) (ha 0) (ha 1)
    have e1 := edgeVerts_both_kept (belowPred si sv eps) (abovePred si sv eps)
      (intersectPt si sv) (tr.V 1) (tr.V 2) (ha 1) (ha 2)
    have e2 := edgeVerts_both_kept (belowPred si sv eps) (abovePred si sv eps)
      (intersectPt si sv) (tr.V 2) (tr.V 0) (ha 2) (ha 0)
    have hcv : clipVerts (belowPred si sv eps) (abovePred si sv eps)
        (intersectPt si sv) tr =
        some (dropClosing (uniqVertices
          [tr.V 0, tr.V 1, tr.V 1, tr.V 2, tr.V 2, tr.V 0])) := by
      simp [clipVerts, collectVerts, e0, e1, e2]
    have huniq : uniqVertices [tr.V 0, tr.V 1, tr.V 1, tr.V 2, tr.V 2, tr.V 0] =
        [tr.V 0, tr.V 1, tr.V 2, tr.V 0] := by
      simp [uniqVertices, uniqAux, Ne.symm h01, Ne.symm h12, Ne.symm h20]
    have hdrop : dropClosing [tr.V 0, tr.V 1, tr.V 2, tr.V 0] =
        [tr.V 0, tr.V 1, tr.V 2] := by
      unfold dropClosing
      rw [if_pos]
      · rfl
      · exact ⟨by norm_num, rfl⟩
    simp [trimTriangleBelow, hcv, huniq, hdrop, fin3_eta]
  · have e0 := edgeVerts_both_excluded (abovePred si sv eps) (belowPred si sv eps)
      (intersectPt si sv) (tr.V 0) (tr.V 1) (hb 0) (hb 1)
    have e1 := edgeVerts_both_excluded (abovePred si sv eps) (belowPred si sv eps)
      (intersectPt si sv) (tr.V 1) (tr.V 2) (hb 1) (hb 2)
    have e2 := edgeVerts_both_excluded (abovePred si sv eps) (belowPred si sv eps)
      (intersectPt si sv) (tr.V 2) (tr.V 0) (hb 2) (hb 0)
    simp [trimTriangleBelow, clipVerts, collectVerts, e0, e1, e2, uniqVertices, dropClosing]

/-- Witness for C6 on a concrete strictly-below triangle. -/
theorem clip_strictly_inside_identity_witness :
    trimTriangleBelow triFlat (belowPred 2 10 0) (abovePred 2 10 0) (intersectPt 2 10) =
      some [triFlat] ∧
    trimTriangleBelow triFlat (abovePred 2 10 0) (belowPred 2 10 0) (intersectPt 2 10) =
      some [] :=
  clip_strictly_inside_identity 2 10 0 triFlat (by norm_num) (by decide)
    (by decide) (by decide) (by decide)

/-- C6 counterexample: a degenerate triangle with two coincident vertices,
all strictly below the plane x = 1, is not returned unchanged by the clip
keeping the below side: the clip collapses it to nothing. -/
theorem degenerate_triangle_clip_counterexample :
    (∀ i : Fin 3, belowPred 0 1 0 (triDegen.V i) = true) ∧
    trimTriangleBelow triDegen (belowPred 0 1 0) (abovePred 0 1 0) (intersectPt 0 1) =
      some [] ∧
    trimTriangleBelow triDegen (belowPred 0 1 0) (abovePred 0 1 0) (intersectPt 0 1) ≠
      some [triDegen] := by
  decide

/-- The cut loop body equals the spec-side routing extended onto the
accumulators. -/
theorem cutStep_eq_route (below above : Point → Bool) (isect : Point → Point → Point)
    (acc : List Triangle × List Triangle) (tr : Triangle) :
    cutStep below above isect acc tr =
      (routeSpec below above isect tr).map
        (fun pq => (acc.1 ++ pq.1, acc.2 ++ pq.2)) := by
  unfold cutStep routeSpec
  cases h0 : (!above (tr.V 0) && !above (tr.V 1) && !above (tr.V 2)) <;>
    cases h1 : (!below (tr.V 0) && !below (tr.V 1) && !below (tr.V 2)) <;>
      simp [h0, h1]
  cases trimTriangleBelow tr below above isect <;>
    cases trimTriangleBelow tr above below isect <;> simp

/-- The accumulator-passing cut loop equals the concatenation of the
spec-side per-triangle routes. -/
theorem cutPartsAux_eq_routeAll (below above : Point → Bool)
    (isect : Point → Point → Point) :
    ∀ (ts : List Triangle) (acc : List Triangle × List Triangle),
      cutPartsAux below above isect acc ts =
        (routeSpecAll below above isect ts).map
          (fun pq => (acc.1 ++ pq.1, acc.2 ++ pq.2)) := by
  intro ts
  induction ts with
  | nil => intro acc; simp [cutPartsAux, routeSpecAll]
  | cons tr rest ih =>
    intro acc
    simp only [cutPartsAux, routeSpecAll, cutStep_eq_route]
    cases hr : routeSpec below above isect tr with
    | none => simp
    | some pq =>
      cases hall : routeSpecAll below above isect rest with
      | none => simp [ih, hall]
      | some rs => simp [ih, hall, List.append_assoc]

/-- C2: the cut partitioner routes every input triangle exactly as the
specification states: fully non-ABOVE triangles go unmodified to the below
mesh, fully non-BELOW triangles go unmodified to the above mesh, triangles
satisfying both go unmodified into both without clipping, all others are
clipped once per half-space, and each result list extends the respective
output mesh in input traversal order. -/
theorem cut_routes_triangles (below above : Point → Bool)
    (isect : Point → Point → Point) (ts : List Triangle) :
    cutParts below above isect ts = routeSpecAll below above isect ts := by
  rw [cutParts, cutPartsAux_eq_routeAll]
  cases routeSpecAll below above isect ts <;> simp

/-- C4 counterexample: with x = 3 and y = 2 both non-zero, slice and cut do
fail with the invalid-plane error, but only after the input mesh has been
read: the failure does not precede the read. -/
theorem plane_error_after_read_counterexample :
    cutSteps false 3 2 0 = [Step.readInput, Step.planeFail] ∧
    ¬ failBeforeRead (cutSteps false 3 2 0) ∧
    sliceSteps 3 2 0 = [Step.readInput, Step.planeFail] ∧
    ¬ failBeforeRead (sliceSteps 3 2 0) := by
  decide

/-- C4 amended: whenever more than one of the three coordinates is non-zero,
both the slice and the cut command fail with the invalid-plane error
immediately after reading the input mesh and before any geometry
processing. -/
theorem plane_error_before_processing (cx cy cz : ℚ)
    (h : (cx ≠ 0 ∧ cy ≠ 0) ∨ (cx ≠ 0 ∧ cz ≠ 0) ∨ (cy ≠ 0 ∧ cz ≠ 0)) :
    sliceSteps cx cy cz = [Step.readInput, Step.planeFail] ∧
    cutSteps false cx cy cz = [Step.readInput, Step.planeFail] := by
  have hsel : selectPlane cx cy cz = none := by
    by_cases hx : cx = 0 <;> by_cases hy : cy = 0 <;> by_cases hz : cz = 0 <;>
      simp_all [selectPlane, planeSel, selStep]
  exact ⟨by simp [sliceSteps, hsel], by simp [cutSteps, hsel]⟩

/-- Witness for C4 at x = 3, y = 2. -/
theorem plane_error_before_processing_witness :
    sliceSteps 3 2 0 = [Step.readInput, Step.planeFail] ∧
    cutSteps false 3 2 0 = [Step.readInput, Step.planeFail] :=
  plane_error_before_processing 3 2 0 (Or.inl ⟨by norm_num, by norm_num⟩)

/-- C7 counterexample: on the default all-zero invocation the selection
loop leaves sx = sy = 0, and a triangle lying ON the default plane z = 0
is emitted with both outline coordinates taken from the X axis: the
emitted outline differs from the projection onto the two axes other than
the cutting axis (X and Y). -/
theorem slice_default_projection_counterexample :
    planeSelSlice 0 0 0 = (2, 0, 0, 0, 0) ∧
    (∀ i : Fin 3, eqPt (belowPred 2 0 0) (abovePred 2 0 0) (triXY.V i) = true) ∧
    projectTriangle 2 0 0 0 0 0 0 triXY =
      SliceOut.outline (0, 0) (100, 100) (0, 0) (0, 0) ∧
    SliceOut.outline (0, 0) (100, 100) (0, 0) (0, 0) ≠
      SliceOut.outline (pxy 0 1 0 0 (triXY.V 0)) (pxy 0 1 0 0 (triXY.V 1))
        (pxy 0 1 0 0 (triXY.V 2)) (pxy 0 1 0 0 (triXY.V 0)) := by
  decide

/-- C7 amended: a triangle whose three vertices all classify ON the slicing
plane is emitted as the closed 3-vertex filled outline (never a line
primitive) through its vertices projected on the axes sx and sy; the
selection loop makes sx and sy the two axes other than the cutting axis
whenever a non-zero coordinate selected the plane, while the default
all-zero invocation leaves sx = sy = 0, taking both output coordinates
from the X axis. -/
theorem coincident_triangle_outline
    (si sx sy : Fin 3) (sv eps minSx minSy : ℚ) (tr : Triangle)
    (h0 : eqPt (belowPred si sv eps) (abovePred si sv eps) (tr.V 0) = true)
    (h1 : eqPt (belowPred si sv eps) (abovePred si sv eps) (tr.V 1) = true)
    (h2 : eqPt (belowPred si sv eps) (abovePred si sv eps) (tr.V 2) = true) :
    projectTriangle si sx sy sv eps minSx minSy tr =
      SliceOut.outline (pxy sx sy minSx minSy (tr.V 0)) (pxy sx sy minSx minSy (tr.V 1))
        (pxy sx sy minSx minSy (tr.V 2)) (pxy sx sy minSx minSy (tr.V 0)) ∧
    (∀ segs, SliceOut.outline (pxy sx sy minSx minSy (tr.V 0))
        (pxy sx sy minSx minSy (tr.V 1)) (pxy sx sy minSx minSy (tr.V 2))
        (pxy sx sy minSx minSy (tr.V 0)) ≠
      SliceOut.lines segs) ∧
    (∀ cx cy cz : ℚ, (planeSelSlice cx cy cz).2.2.2.2 ≤ 1 →
      ((planeSelSlice cx cy cz).2.1 = (planeSelSlice cx cy cz).1 + 1 ∧
        (planeSelSlice cx cy cz).2.2.1 = (planeSelSlice cx cy cz).1 + 2) ∨
      (cx = 0 ∧ cy = 0 ∧ cz = 0 ∧ planeSelSlice cx cy cz = (2, 0, 0, 0, 0))) := by
  have ha0 : abovePred si sv eps (tr.V 0) = false := by
    have h := h0
    simp [eqPt, Bool.and_eq_true, Bool.not_eq_true'] at h
    exact h.1
  have ha1 : abovePred si sv eps (tr.V 1) = false := by
    have h := h1
    simp [eqPt, Bool.and_eq_true, Bool.not_eq_true'] at h
    exact h.1
  have ha2 : abovePred si sv eps (tr.V 2) = false := by
    have h := h2
    simp [eqPt, Bool.and_eq_true, Bool.not_eq_true'] at h
    exact h.1
  have hb0 : belowPred si sv eps (tr.V 0) = false := by
    have h := h0
    simp [eqPt, Bool.and_eq_true, Bool.not_eq_true'] at h
    exact h.2
  refine ⟨?_, fun segs hcon => SliceOut.noConfusion hcon, ?_⟩
  · simp [projectTriangle, ha0, ha1, ha2, hb0, h0, h1, h2]
  · intro cx cy cz hcnt
    by_cases hx : cx = 0 <;> by_cases hy : cy = 0 <;> by_cases hz : cz = 0 <;>
      simp_all [planeSelSlice, selStepSlice]

/-- Witness for C7 on the z = 5 coincident triangle with the frame the
selection loop derives for the z flag. -/
theorem coincident_triangle_outline_witness :
    projectTriangle 2 0 1 5 0 0 0 triFlat =
      SliceOut.outline (pxy 0 1 0 0 (triFlat.V 0)) (pxy 0 1 0 0 (triFlat.V 1))
        (pxy 0 1 0 0 (triFlat.V 2)) (pxy 0 1 0 0 (triFlat.V 0)) :=
  (coincident_triangle_outline 2 0 1 5 0 0 0 triFlat (by decide) (by decide)
    (by decide)).1

/-- Replacing the intersector by one that agrees on every strictly-crossing
pair does not change a single edge contribution. -/
theorem edgeVerts_isect_congr (below above : Point → Bool)
    (isect1 isect2 : Point → Point → Point) (cur next : Point)
    (hag : ∀ p q, (below p = true ∧ above q = true) ∨
      (above p = true ∧ below q = true) → isect1 p q = isect2 p q) :
    edgeVerts below above isect1 cur next = edgeVerts below above isect2 cur next := by
  unfold edgeVerts
  split_ifs with hA hB hC hD hE hF
  · rfl
  · rfl
  · rfl
  · rfl
  · simp only [Bool.and_eq_true] at hE
    rw [hag cur next (Or.inl hE)]
  · simp only [Bool.and_eq_true] at hF
    rw [hag cur next (Or.inr hF)]
  · rfl

/-- Intersector congruence lifts from edges to the whole clipper. -/
theorem trim_isect_congr (below above : Point → Bool)
    (isect1 isect2 : Point → Point → Point) (tr : Triangle)
    (hag : ∀ p q, (below p = true ∧ above q = true) ∨
      (above p = true ∧ below q = true) → isect1 p q = isect2 p q) :
    trimTriangleBelow tr below above isect1 = trimTriangleBelow tr below above isect2 := by
  unfold trimTriangleBelow clipVerts collectVerts
  rw [edgeVerts_isect_congr below above isect1 isect2 (tr.V 0) (tr.V 1) hag,
    edgeVerts_isect_congr below above isect1 isect2 (tr.V 1) (tr.V 2) hag,
    edgeVerts_isect_congr below above isect1 isect2 (tr.V 2) (tr.V 0) hag]

/-- C9: the clipper consults the intersector only on edges whose endpoints
classify strictly below and strictly above in some order, and for the axis
classifiers with non-negative tolerance such endpoints always differ on the
cutting axis, so the interpolation denominator is non-zero. -/
theorem intersector_strict_crossings :
    (∀ (below above : Point → Bool) (isect1 isect2 : Point → Point → Point)
      (tr : Triangle),
      (∀ p q, (below p = true ∧ above q = true) ∨
        (above p = true ∧ below q = true) → isect1 p q = isect2 p q) →
      trimTriangleBelow tr below above isect1 =
        trimTriangleBelow tr below above isect2) ∧
    (∀ (si : Fin 3) (sv eps : ℚ) (p q : Point), 0 ≤ eps →
      belowPred si sv eps p = true → abovePred si sv eps q = true →
      p si ≠ q si ∧ q si - p si ≠ 0) := by
  constructor
  · intro below above isect1 isect2 tr hag
    exact trim_isect_congr below above isect1 isect2 tr hag
  · intro si sv eps p q heps hbp haq
    simp only [belowPred, decide_eq_true_eq] at hbp
    simp only [abovePred, decide_eq_true_eq] at haq
    have hlt : p si < q si := by linarith
    exact ⟨hlt.ne, sub_ne_zero.mpr hlt.ne'⟩

/-- Witness for C9: the junk intersector agreeing only on classified first
points gives the same clip of the scenario triangle, and the crossing edge
endpoints differ on the x axis. -/
theorem intersector_strict_crossings_witness :
    trimTriangleBelow tri3 (belowPred 0 1 0) (abovePred 0 1 0) (intersectPt 0 1) =
      trimTriangleBelow tri3 (belowPred 0 1 0) (abovePred 0 1 0) isectAlt ∧
    ((![0, 0, 0] : Point) 0 ≠ (![2, 0, 0] : Point) 0 ∧
      (![2, 0, 0] : Point) 0 - (![0, 0, 0] : Point) 0 ≠ 0) :=
  ⟨intersector_strict_crossings.1 (belowPred 0 1 0) (abovePred 0 1 0)
      (intersectPt 0 1) isectAlt tri3 (fun p q h => by
        rcases h with ⟨hx, _⟩ | ⟨hx, _⟩ <;> simp [isectAlt, hx]),
    intersector_strict_crossings.2 0 1 0 ![0, 0, 0] ![2, 0, 0] (by norm_num)
      (by decide) (by decide)⟩

end Steel
